import Mathlib

/-!
Verification of the kart-challenge coupon pipeline.

The definitions below are a shallow embedding of the Go sources:
- `services/coupons/internal/repository/coupon.go` (store operations),
- `services/coupons/internal/processor/processor.go` (file processor),
- `services/orderfoodonline/internal/repository` (`ValidateCouponCode`),
- the order service's `PlaceOrder` coupon check.

MongoDB collections are modelled as Lean lists in natural (insertion)
order; `UpdateOne` updates the first matching document, upserts append,
`UpdateMany` maps over every matching document.  `uuid.New()` is modelled
by an allocation counter threaded through the store.  Unix timestamps are
explicit `Int` parameters.
-/

namespace KartChallenge

/-- A document of the `coupons` collection (fields of the Go model written
by `AddCoupons`: `id`, `coupon_code`, `file_name`, `datetime`, `isactive`).
The opaque uuid is modelled as the allocation counter value at insert. -/
structure Coupon where
  id : Nat
  coupon_code : String
  file_name : String
  datetime : Int
  isactive : Bool
deriving DecidableEq, Repr

/-- The `coupons` collection together with the uuid allocator. -/
structure CouponStore where
  recs : List Coupon
  nextId : Nat
deriving DecidableEq, Repr

/-- The filter `{"coupon_code": code, "file_name": fileName}` used by
`AddCoupons`' upsert models and by `DeactivateCoupons`. -/
def matchesKey (code fileName : String) (r : Coupon) : Bool :=
  r.coupon_code = code && r.file_name = fileName

/-- `UpdateOne` semantics of the `$set {datetime, isactive: true}` update:
modify the first document matching (`code`, `fileName`). -/
def touchFirst (now : Int) (code fileName : String) : List Coupon → List Coupon
  | [] => []
  | r :: rs =>
    if matchesKey code fileName r then
      { r with datetime := now, isactive := true } :: rs
    else
      r :: touchFirst now code fileName rs

/-- Whether some document matches the upsert filter
(`code`, `fileName`). -/
def hasKey (code fileName : String) (recs : List Coupon) : Bool :=
  recs.any (matchesKey code fileName)

/-- One `UpdateOne ... SetUpsert(true)` write model from `AddCoupons`:
if a document matches (`code`, `fileName`) its `datetime`/`isactive` are
set; otherwise a fresh document is inserted with a new id,
`$setOnInsert`-ing `coupon_code` and `file_name`. -/
def upsertOne (fileName : String) (now : Int) (st : CouponStore) (code : String) : CouponStore :=
  if hasKey code fileName st.recs then
    { st with recs := touchFirst now code fileName st.recs }
  else
    { recs := st.recs ++ [⟨st.nextId, code, fileName, now, true⟩],
      nextId := st.nextId + 1 }

/-- `couponRepository.AddCoupons`: an ordered `BulkWrite` of one upsert
per code (empty input is a no-op, as in the Go early return). -/
def AddCoupons (fileName : String) (codes : List String) (now : Int) (st : CouponStore) : CouponStore :=
  codes.foldl (upsertOne fileName now) st

/-- `couponRepository.DeactivateCoupons`: one `UpdateMany` setting
`isactive := false` on every document with `file_name = fileName` and
`coupon_code ∈ codes`. -/
def DeactivateCoupons (fileName : String) (codes : List String) (st : CouponStore) : CouponStore :=
  { st with
    recs := st.recs.map (fun r =>
      if r.file_name = fileName && codes.contains r.coupon_code then
        { r with isactive := false }
      else r) }

/-- `couponRepository.ValidateCouponCode` (order service): the aggregation
`$match {coupon_code, isactive: true}` / `$group by file_name` /
`$limit 2`, answering whether at least two groups exist. -/
def ValidateCouponCode (recs : List Coupon) (code : String) : Bool :=
  decide (2 ≤ ((((recs.filter (fun r => r.coupon_code = code && r.isactive)).map
      (fun r => r.file_name)).dedup).take 2).length)

/-- Modelled from the spec: the set of distinct `file_name` values having
at least one `active=true` record for `code` (the spec's formulation of
the validation rule, for comparison with `ValidateCouponCode`). -/
def specDistinctActiveFiles (recs : List Coupon) (code : String) : Finset String :=
  ((recs.filter (fun r => r.coupon_code = code && r.isactive)).map
    (fun r => r.file_name)).toFinset

/-- C1: `ValidateCouponCode(c)` is true iff at least two distinct
`file_name` values each have an `active=true` record for `c`. -/
theorem validateCouponCode_iff_two_distinct_files (recs : List Coupon) (code : String) :
    ValidateCouponCode recs code = true ↔
      2 ≤ (specDistinctActiveFiles recs code).card := by
  unfold ValidateCouponCode specDistinctActiveFiles
  rw [List.card_toFinset]
  simp only [decide_eq_true_eq, List.length_take]
  omega

/-- Go's `strings.TrimSpace`: strip leading and trailing whitespace.
Written over the character list so that it evaluates by kernel
reduction. -/
def trimSpace (s : String) : String :=
  ⟨((s.data.dropWhile Char.isWhitespace).reverse.dropWhile Char.isWhitespace).reverse⟩

/-- Outcome of the coupon-validation section at the top of the order
service's `PlaceOrder` (before item validation). -/
inductive CouponCheck where
  | noCoupon
  | invalidPromoCode
  | accepted
deriving DecidableEq, Repr

/-- The coupon-validation section of `orderService.PlaceOrder`: if the
trimmed request code is non-empty, the length-in-[8,10] rule is applied
to the trimmed code, and then `ValidateCouponCode` is called with the
original, untrimmed request string.  Go's byte length is modelled as
`String.length` (the claims concern ASCII codes). -/
def placeOrderCouponCheck (recs : List Coupon) (couponCode : String) : CouponCheck :=
  if trimSpace couponCode ≠ "" then
    if (trimSpace couponCode).length < 8 || 10 < (trimSpace couponCode).length then
      .invalidPromoCode
    else if ValidateCouponCode recs couponCode then
      .accepted
    else
      .invalidPromoCode
  else
    .noCoupon

/-- C10: when the request code carries surrounding whitespace (it differs
from its trimmed form), the length check is applied to the trimmed form,
but `ValidateCouponCode` receives the untrimmed string; if every stored
code is trimmed, the order is rejected with the invalid-promo-code error
even though the trimmed code passes the length check and is itself valid. -/
theorem placeOrder_untrimmed_code_rejected (recs : List Coupon) (couponCode : String)
    (hpad : trimSpace couponCode ≠ couponCode)
    (hne : trimSpace couponCode ≠ "")
    (hlen : 8 ≤ (trimSpace couponCode).length ∧ (trimSpace couponCode).length ≤ 10)
    (hstore : ∀ r ∈ recs, trimSpace r.coupon_code = r.coupon_code)
    (_hvalid : ValidateCouponCode recs (trimSpace couponCode) = true) :
    placeOrderCouponCheck recs couponCode = .invalidPromoCode := by
  have hnomatch : ∀ r ∈ recs, r.coupon_code ≠ couponCode := by
    intro r hr heq
    exact hpad (heq ▸ (heq ▸ hstore r hr))
  have hval : ValidateCouponCode recs couponCode = false := by
    have hfilter :
        recs.filter (fun r => r.coupon_code = couponCode && r.isactive) = [] := by
      rw [List.filter_eq_nil_iff]
      intro r hr
      simp only [Bool.and_eq_true, decide_eq_true_eq, not_and]
      intro hc
      exact absurd hc (hnomatch r hr)
    unfold ValidateCouponCode
    rw [hfilter]
    decide
  unfold placeOrderCouponCheck
  rw [if_pos hne,
    if_neg (by simp only [Bool.or_eq_true, decide_eq_true_eq, not_or, not_lt]; omega), hval]
  simp

/-- Non-vacuity witness for C10: two files both contribute the trimmed
code `"ABCDEFGH"`, the padded request `" ABCDEFGH"` passes the length
rule on its trimmed form yet the order is rejected. -/
theorem placeOrder_untrimmed_code_rejected_witness :
    placeOrderCouponCheck
      [⟨0, "ABCDEFGH", "f1.gz", 0, true⟩, ⟨1, "ABCDEFGH", "f2.gz", 0, true⟩]
      " ABCDEFGH" = .invalidPromoCode :=
  placeOrder_untrimmed_code_rejected _ _
    (by decide) (by decide) (by decide) (by decide) (by decide)

/-- A document of the `processed-coupon-files` ledger collection
(`models.ProcessedCouponFile`).  `couponCodeCount` is the Go `int64`
count, modelled as `Int`. -/
structure ProcessedCouponFile where
  id : String
  md5hash : String
  fileName : String
  isAdd : Bool
  size : Int
  couponCodeCount : Int
  datetime : Int
  status : String
deriving DecidableEq, Repr

/-- `couponRepository.IsFileProcessed`: `FindOne` on the ledger with the
filter `$and [{isadd}, {file_name}]`; the first document in natural
order, or `none`. -/
def IsFileProcessed (ledger : List ProcessedCouponFile) (isAdd : Bool)
    (fileName : String) : Option ProcessedCouponFile :=
  ledger.find? (fun r => r.isAdd = isAdd && r.fileName = fileName)

/-- `couponRepository.InsertProcessedFile`: a plain `InsertOne`, appending
the document to the collection. -/
def InsertProcessedFile (ledger : List ProcessedCouponFile)
    (file : ProcessedCouponFile) : List ProcessedCouponFile :=
  ledger ++ [file]

/-- `couponRepository.UpdateProcessingStatus`: `UpdateOne` with filter
`{id}`, setting `status` and `coupon_code_counts` on the first matching
document. -/
def UpdateProcessingStatus : List ProcessedCouponFile → String → String → Int →
    List ProcessedCouponFile
  | [], _, _, _ => []
  | r :: rs, id, status, total =>
    if r.id = id then
      { r with status := status, couponCodeCount := total } :: rs
    else
      r :: UpdateProcessingStatus rs id status total

/-- What eventually happens to a batch successfully handed to the batch
channel: persisted by a worker, failed in a worker's `processBatch`, or
still in flight (buffered or abandoned). -/
inductive BatchFate where
  | committed
  | failedBatch
  | inflight
deriving DecidableEq, Repr

/-- How one of the producer's three-way `select` blocks resolves:
the send on `batchChan` wins (with the batch's eventual fate), the read
of `errorChan` wins, or `ctx.Done()` wins. -/
inductive SelectOutcome where
  | sent (fate : BatchFate)
  | workerErr
  | cancelled
deriving DecidableEq, Repr

/-- How `processFileOptimized` returned: cleanly, with a worker/batch
error, with a scanner error, or with `ctx.Err()` after cancellation. -/
inductive RunResult where
  | ok
  | batchErr
  | scanErr
  | cancelled
deriving DecidableEq, Repr

/-- Return value of the producer: the running `total`, the kind of
return, and the batches that were handed to the channel. -/
structure ProducerOutcome where
  total : Int
  result : RunResult
  sentBatches : List (List String × BatchFate)
deriving DecidableEq, Repr

/-- Number of lines in all batches handed to the channel. -/
def enqueuedLines (bs : List (List String × BatchFate)) : Int :=
  (bs.map (fun b => (b.1.length : Int))).sum

/-- Number of lines in batches a worker fully persisted. -/
def committedLines (bs : List (List String × BatchFate)) : Int :=
  ((bs.filter (fun b => b.2 = BatchFate.committed)).map
    (fun b => (b.1.length : Int))).sum

/-- The line loop of `processFileOptimized`.  `lines` are the rows the
scanner yields (in order), `lineNum`/`codes`/`total` the Go locals, `si`
indexes the schedule resolving each `select`, and `acc` the batches sent
so far.  A scanner error (`scanFail`) surfaces after the loop, before the
remainder is flushed; `finalErr` says whether the post-drain non-blocking
read of `errorChan` yields an error. -/
def producerGo (sched : Nat → SelectOutcome) (batchSize : Nat) (resumeCount : Int)
    (scanFail finalErr : Bool) :
    List String → Int → List String → Int → Nat →
    List (List String × BatchFate) → ProducerOutcome
  | [], _lineNum, codes, total, si, acc =>
    if scanFail then ⟨total, .scanErr, acc⟩
    else if codes.isEmpty then
      if finalErr then ⟨total, .batchErr, acc⟩ else ⟨total, .ok, acc⟩
    else
      match sched si with
      | .sent fate =>
        if finalErr then ⟨total + codes.length, .batchErr, acc ++ [(codes, fate)]⟩
        else ⟨total + codes.length, .ok, acc ++ [(codes, fate)]⟩
      | .workerErr => ⟨total, .batchErr, acc⟩
      | .cancelled => ⟨total, .cancelled, acc⟩
  | line :: rest, lineNum, codes, total, si, acc =>
    if resumeCount > 0 ∧ lineNum + 1 ≤ resumeCount then
      producerGo sched batchSize resumeCount scanFail finalErr
        rest (lineNum + 1) codes total si acc
    else if trimSpace line = "" then
      producerGo sched batchSize resumeCount scanFail finalErr
        rest (lineNum + 1) codes total si acc
    else if batchSize ≤ codes.length + 1 then
      match sched si with
      | .sent fate =>
        producerGo sched batchSize resumeCount scanFail finalErr
          rest (lineNum + 1) [] (total + (codes.length + 1)) (si + 1)
          (acc ++ [(codes ++ [trimSpace line], fate)])
      | .workerErr => ⟨total, .batchErr, acc⟩
      | .cancelled => ⟨total, .cancelled, acc⟩
    else
      producerGo sched batchSize resumeCount scanFail finalErr
        rest (lineNum + 1) (codes ++ [trimSpace line]) total si acc

/-- `CouponProcessor.processFileOptimized`, as seen from its return value:
runs the line loop from the start of the decompressed stream. -/
def processFileOptimized (sched : Nat → SelectOutcome) (batchSize : Nat)
    (resumeCount : Int) (scanFail finalErr : Bool) (lines : List String) :
    ProducerOutcome :=
  producerGo sched batchSize resumeCount scanFail finalErr lines 0 [] 0 0 []

/-- `batchProcessor.processBatch`: empty batches are dropped; otherwise
the store call is `AddCoupons` or `DeactivateCoupons` by `isAdd`. -/
def processBatch (isAdd : Bool) (fileName : String) (now : Int)
    (st : CouponStore) (codes : List String) : CouponStore :=
  if codes.isEmpty then st
  else if isAdd then AddCoupons fileName codes now st
  else DeactivateCoupons fileName codes st

/-- Worker-side persistence: only batches a worker fully persisted
(`committed`) reach the store. -/
def applyCommitted (isAdd : Bool) (fileName : String) (now : Int)
    (st : CouponStore) (bs : List (List String × BatchFate)) : CouponStore :=
  bs.foldl
    (fun s b => if b.2 = BatchFate.committed then processBatch isAdd fileName now s b.1 else s)
    st

/-- The processor's batch-size default: the configured value when
positive, else 5000 (`handleGzFile`). -/
def effectiveBatchSize (cfg : Int) : Nat :=
  if 0 < cfg then cfg.toNat else 5000

/-- The per-file inputs of one `handleGzFile` invocation that the claims
depend on: file identity, fingerprint, the fresh uuid drawn at the top of
the call, and the wall-clock second. -/
structure FileJob where
  fileName : String
  isAdd : Bool
  md5sum : String
  size : Int
  now : Int
  freshId : String
deriving DecidableEq, Repr

/-- The environment of one run: whether `gzip.NewReader` fails, the
scanned lines, scanner/late worker errors, the `select` schedule and the
configured batch size. -/
structure RunEnv where
  gzOpenFail : Bool
  lines : List String
  scanFail : Bool
  finalErr : Bool
  sched : Nat → SelectOutcome
  cfgBatchSize : Int

/-- Observable summary of one `handleGzFile` run. -/
structure HandleReport where
  skipped : Bool
  gzAborted : Bool
  resumeCount : Int
  usedId : Option String
  inserted : Option ProcessedCouponFile
  producer : Option ProducerOutcome
  finalUpdate : Option (String × String × Int)
deriving DecidableEq, Repr

/-- The body of `handleGzFile` after the ledger reconciliation decided to
proceed with watermark `resumeCount` and ledger id `pid`: a failed
`gzip.NewReader` returns before any write; otherwise the `initiated`
record is inserted, the deferred finaliser is armed, the producer runs,
and the finaliser records `completed`/`failed` with the producer total. -/
def handleProceed (job : FileJob) (env : RunEnv) (ledger : List ProcessedCouponFile)
    (store : CouponStore) (resumeCount : Int) (pid : String) :
    List ProcessedCouponFile × CouponStore × HandleReport :=
  if env.gzOpenFail then
    (ledger, store,
      { skipped := false, gzAborted := true, resumeCount := resumeCount,
        usedId := some pid, inserted := none, producer := none, finalUpdate := none })
  else
    let rec0 : ProcessedCouponFile :=
      { id := pid, md5hash := job.md5sum, fileName := job.fileName,
        isAdd := job.isAdd, size := job.size, couponCodeCount := 0,
        datetime := job.now, status := "initiated" }
    let ledger1 := InsertProcessedFile ledger rec0
    let po := processFileOptimized env.sched (effectiveBatchSize env.cfgBatchSize)
      resumeCount env.scanFail env.finalErr env.lines
    let status := if po.result = RunResult.ok then "completed" else "failed"
    let ledger2 := UpdateProcessingStatus ledger1 pid status po.total
    let store2 := applyCommitted job.isAdd job.fileName job.now store po.sentBatches
    (ledger2, store2,
      { skipped := false, gzAborted := false, resumeCount := resumeCount,
        usedId := some pid, inserted := some rec0, producer := some po,
        finalUpdate := some (pid, status, po.total) })

/-- The ledger reconciliation decision at the top of `handleGzFile`:
`none` means skip (prior run `completed` or still `initiated`); otherwise
the chosen (watermark, ledger id): the prior count and id only for
`failed` with a positive count, else watermark 0 with the fresh uuid. -/
def reconcile : Option ProcessedCouponFile → String → Option (Int × String)
  | some prior, freshId =>
    if prior.status = "completed" || prior.status = "initiated" then none
    else if prior.status = "failed" && 0 < prior.couponCodeCount then
      some (prior.couponCodeCount, prior.id)
    else some (0, freshId)
  | none, freshId => some (0, freshId)

/-- `CouponProcessor.handleGzFile`: ledger reconciliation, then the
processing body. -/
def handleGzFile (job : FileJob) (env : RunEnv) (ledger : List ProcessedCouponFile)
    (store : CouponStore) : List ProcessedCouponFile × CouponStore × HandleReport :=
  match reconcile (IsFileProcessed ledger job.isAdd job.fileName) job.freshId with
  | none =>
    (ledger, store,
      { skipped := true, gzAborted := false, resumeCount := 0, usedId := none,
        inserted := none, producer := none, finalUpdate := none })
  | some (resumeCount, pid) => handleProceed job env ledger store resumeCount pid

theorem enqueuedLines_append (acc : List (List String × BatchFate))
    (b : List String × BatchFate) :
    enqueuedLines (acc ++ [b]) = enqueuedLines acc + b.1.length := by
  simp [enqueuedLines]

/-- The producer's `total` always equals the number of lines handed to
the batch channel, on every exit path. -/
theorem producerGo_total_enqueued (sched : Nat → SelectOutcome) (batchSize : Nat)
    (resumeCount : Int) (scanFail finalErr : Bool) :
    ∀ (lines : List String) (lineNum : Int) (codes : List String) (total : Int)
      (si : Nat) (acc : List (List String × BatchFate)),
      total = enqueuedLines acc →
      (producerGo sched batchSize resumeCount scanFail finalErr
          lines lineNum codes total si acc).total
        = enqueuedLines (producerGo sched batchSize resumeCount scanFail finalErr
            lines lineNum codes total si acc).sentBatches := by
  intro lines
  induction lines with
  | nil =>
    intro lineNum codes total si acc h
    simp only [producerGo]
    split
    · exact h
    · split
      · split <;> exact h
      · split
        · split <;> simp [enqueuedLines_append, h]
        · exact h
        · exact h
  | cons line rest ih =>
    intro lineNum codes total si acc h
    simp only [producerGo]
    split
    · exact ih (lineNum + 1) codes total si acc h
    · split
      · exact ih (lineNum + 1) codes total si acc h
      · split
        · split
          · refine ih (lineNum + 1) [] (total + (codes.length + 1)) (si + 1) _ ?_
            simp [enqueuedLines_append, h]
          · exact h
          · exact h
        · exact ih (lineNum + 1) (codes ++ [trimSpace line]) total si acc h

theorem processFileOptimized_total_enqueued (sched : Nat → SelectOutcome)
    (batchSize : Nat) (resumeCount : Int) (scanFail finalErr : Bool)
    (lines : List String) :
    (processFileOptimized sched batchSize resumeCount scanFail finalErr lines).total
      = enqueuedLines (processFileOptimized sched batchSize resumeCount scanFail
          finalErr lines).sentBatches :=
  producerGo_total_enqueued sched batchSize resumeCount scanFail finalErr
    lines 0 [] 0 0 [] rfl

/-- When reconciliation decides to skip, `handleGzFile` is the pure
skip triple. -/
theorem handleGzFile_eq_skip (job : FileJob) (env : RunEnv)
    (ledger : List ProcessedCouponFile) (store : CouponStore)
    (hrec : reconcile (IsFileProcessed ledger job.isAdd job.fileName) job.freshId = none) :
    handleGzFile job env ledger store =
      (ledger, store,
        { skipped := true, gzAborted := false, resumeCount := 0, usedId := none,
          inserted := none, producer := none, finalUpdate := none }) := by
  unfold handleGzFile
  rw [hrec]

/-- When reconciliation decides to proceed, `handleGzFile` is the
processing body at the decided watermark and id. -/
theorem handleGzFile_eq_proceed (job : FileJob) (env : RunEnv)
    (ledger : List ProcessedCouponFile) (store : CouponStore)
    (resumeCount : Int) (pid : String)
    (hrec : reconcile (IsFileProcessed ledger job.isAdd job.fileName) job.freshId
      = some (resumeCount, pid)) :
    handleGzFile job env ledger store = handleProceed job env ledger store resumeCount pid := by
  unfold handleGzFile
  rw [hrec]

/-- If the processing body ran the producer, the deferred finaliser fired
with the run's id, the status determined by the producer result, and the
producer total, which counts exactly the lines handed to the batch
channel. -/
theorem handleProceed_finaliser (job : FileJob) (env : RunEnv)
    (ledger : List ProcessedCouponFile) (store : CouponStore)
    (resumeCount : Int) (pid : String) (po : ProducerOutcome)
    (hpo : (handleProceed job env ledger store resumeCount pid).2.2.producer = some po) :
    (handleProceed job env ledger store resumeCount pid).2.2.usedId = some pid ∧
      (handleProceed job env ledger store resumeCount pid).2.2.finalUpdate =
        some (pid, if po.result = RunResult.ok then "completed" else "failed", po.total) ∧
      po.total = enqueuedLines po.sentBatches := by
  unfold handleProceed at hpo ⊢
  split at hpo <;> rename_i hgz
  · simp at hpo
  · rw [if_neg hgz]
    simp only [Option.some.injEq] at hpo
    refine ⟨by simp, by simp [← hpo], ?_⟩
    rw [← hpo]
    exact processFileOptimized_total_enqueued _ _ _ _ _ _

/-- Whenever a `handleGzFile` run actually ran the producer, the deferred
finaliser fired with the run's id, the status determined by the producer
result, and the producer total, which counts exactly the lines handed to
the batch channel. -/
theorem handleGzFile_finaliser (job : FileJob) (env : RunEnv)
    (ledger : List ProcessedCouponFile) (store : CouponStore) (po : ProducerOutcome)
    (hpo : (handleGzFile job env ledger store).2.2.producer = some po) :
    ∃ pid, (handleGzFile job env ledger store).2.2.usedId = some pid ∧
      (handleGzFile job env ledger store).2.2.finalUpdate =
        some (pid, if po.result = RunResult.ok then "completed" else "failed", po.total) ∧
      po.total = enqueuedLines po.sentBatches := by
  rcases hrec : reconcile (IsFileProcessed ledger job.isAdd job.fileName) job.freshId with
    _ | ⟨resumeCount, pid⟩
  · rw [handleGzFile_eq_skip job env ledger store hrec] at hpo
    simp at hpo
  · rw [handleGzFile_eq_proceed job env ledger store resumeCount pid hrec] at hpo ⊢
    exact ⟨pid, handleProceed_finaliser job env ledger store resumeCount pid po hpo⟩

/-- A small concrete add-file job used by the concrete runs below. -/
def jobA : FileJob := ⟨"f.gz", true, "h", 1, 0, "id1"⟩

/-- Concrete run: batch size 1, the first batch is handed to a worker and
fails there, and the producer observes the error channel when trying to
enqueue the second batch. -/
def envBatchErr : RunEnv :=
  ⟨false, ["a", "b"], false, false,
    fun i => if i = 0 then SelectOutcome.sent BatchFate.failedBatch
             else SelectOutcome.workerErr, 1⟩

/-- Concrete run: batch size 1, the first batch is handed to the channel
but never persisted, and cancellation is observed at the second enqueue. -/
def envCancel : RunEnv :=
  ⟨false, ["a", "b"], false, false,
    fun i => if i = 0 then SelectOutcome.sent BatchFate.inflight
             else SelectOutcome.cancelled, 1⟩

/-- Concrete run: the scanner fails after one line, before any batch was
filled. -/
def envScanErr : RunEnv :=
  ⟨false, ["a"], true, false, fun _ => SelectOutcome.workerErr, 0⟩

/-- Concrete run: `gzip.NewReader` fails. -/
def envGzFail : RunEnv :=
  ⟨true, [], false, false, fun _ => SelectOutcome.workerErr, 0⟩

/-- Concrete run: everything succeeds, default batch size. -/
def envPlain : RunEnv :=
  ⟨false, ["a", "b", "c", "d", "e", "f"], false, false,
    fun _ => SelectOutcome.sent BatchFate.committed, 0⟩

/-- C2 (amended): when the producer aborts on a batch-storage error, the
deferred finaliser records `failed` with the producer total, which equals
the number of lines handed to the batch channel before the error was
observed — batches still in flight are included in that count. -/
theorem batchError_finaliser_records_enqueued (job : FileJob) (env : RunEnv)
    (ledger : List ProcessedCouponFile) (store : CouponStore) (po : ProducerOutcome)
    (hpo : (handleGzFile job env ledger store).2.2.producer = some po)
    (hres : po.result = RunResult.batchErr) :
    ∃ pid, (handleGzFile job env ledger store).2.2.finalUpdate =
        some (pid, "failed", po.total) ∧
      po.total = enqueuedLines po.sentBatches := by
  obtain ⟨pid, _, hupd, htot⟩ := handleGzFile_finaliser job env ledger store po hpo
  refine ⟨pid, ?_, htot⟩
  rw [hupd, hres]
  simp

/-- Witness for C2's amended theorem on the `envBatchErr` run. -/
theorem batchError_finaliser_records_enqueued_witness :
    ∃ pid, (handleGzFile jobA envBatchErr [] ⟨[], 0⟩).2.2.finalUpdate =
        some (pid, "failed", (1 : Int)) ∧
      (1 : Int) = enqueuedLines [(["a"], BatchFate.failedBatch)] :=
  batchError_finaliser_records_enqueued jobA envBatchErr [] ⟨[], 0⟩
    ⟨1, RunResult.batchErr, [(["a"], BatchFate.failedBatch)]⟩ (by decide) (by decide)

/-- Counterexample to C2 as stated: in the `envBatchErr` run the first
batch failed in its worker (nothing was ever committed) yet the finaliser
records `failed` with `processed_count = 1`, the enqueued line — not the
0 lines of fully-committed batches. -/
theorem batchError_counts_inflight_concrete :
    (handleGzFile jobA envBatchErr [] ⟨[], 0⟩).2.2.producer =
        some ⟨1, RunResult.batchErr, [(["a"], BatchFate.failedBatch)]⟩ ∧
      (handleGzFile jobA envBatchErr [] ⟨[], 0⟩).2.2.finalUpdate =
        some ("id1", "failed", 1) ∧
      committedLines [(["a"], BatchFate.failedBatch)] = 0 := by
  decide

/-- C5 (amended): whenever the producer observes cancellation — at a
batch enqueue or at the remainder flush — it returns, and the deferred
finaliser still runs, recording `failed` together with the producer's
running total, i.e. the number of lines handed to the batch channel so
far (in-flight batches included). -/
theorem cancellation_finaliser_records_failed (job : FileJob) (env : RunEnv)
    (ledger : List ProcessedCouponFile) (store : CouponStore) (po : ProducerOutcome)
    (hpo : (handleGzFile job env ledger store).2.2.producer = some po)
    (hres : po.result = RunResult.cancelled) :
    ∃ pid, (handleGzFile job env ledger store).2.2.finalUpdate =
        some (pid, "failed", po.total) ∧
      po.total = enqueuedLines po.sentBatches := by
  obtain ⟨pid, _, hupd, htot⟩ := handleGzFile_finaliser job env ledger store po hpo
  refine ⟨pid, ?_, htot⟩
  rw [hupd, hres]
  simp

/-- Witness for C5's amended theorem on the `envCancel` run. -/
theorem cancellation_finaliser_records_failed_witness :
    ∃ pid, (handleGzFile jobA envCancel [] ⟨[], 0⟩).2.2.finalUpdate =
        some (pid, "failed", (1 : Int)) ∧
      (1 : Int) = enqueuedLines [(["a"], BatchFate.inflight)] :=
  cancellation_finaliser_records_failed jobA envCancel [] ⟨[], 0⟩
    ⟨1, RunResult.cancelled, [(["a"], BatchFate.inflight)]⟩ (by decide) (by decide)

/-- Counterexample to C5 as stated: on the `envCancel` run the only
enqueued batch is still in flight (0 lines committed), yet the finaliser
records `failed` with `processed_count = 1`, not the currently-committed
count 0. -/
theorem cancellation_counts_inflight_concrete :
    (handleGzFile jobA envCancel [] ⟨[], 0⟩).2.2.producer =
        some ⟨1, RunResult.cancelled, [(["a"], BatchFate.inflight)]⟩ ∧
      (handleGzFile jobA envCancel [] ⟨[], 0⟩).2.2.finalUpdate =
        some ("id1", "failed", 1) ∧
      committedLines [(["a"], BatchFate.inflight)] = 0 := by
  decide

/-- C6 (amended): a scanner error makes the deferred finaliser record
`failed` with the watermark total, but a failure to open the gzip decoder
returns before the ledger insert and the deferred finaliser are armed,
leaving the ledger untouched for that run. -/
theorem scanError_records_failed_gzOpen_writes_nothing (job : FileJob) (env : RunEnv)
    (ledger : List ProcessedCouponFile) (store : CouponStore) :
    (∀ po, (handleGzFile job env ledger store).2.2.producer = some po →
      po.result = RunResult.scanErr →
      ∃ pid, (handleGzFile job env ledger store).2.2.finalUpdate =
        some (pid, "failed", po.total)) ∧
    (env.gzOpenFail = true →
      (handleGzFile job env ledger store).1 = ledger ∧
      (handleGzFile job env ledger store).2.2.finalUpdate = none) := by
  constructor
  · intro po hpo hres
    obtain ⟨pid, _, hupd, _⟩ := handleGzFile_finaliser job env ledger store po hpo
    refine ⟨pid, ?_⟩
    rw [hupd, hres]
    simp
  · intro hgz
    rcases hrec : reconcile (IsFileProcessed ledger job.isAdd job.fileName) job.freshId with
      _ | ⟨resumeCount, pid⟩
    · rw [handleGzFile_eq_skip job env ledger store hrec]
      exact ⟨rfl, rfl⟩
    · rw [handleGzFile_eq_proceed job env ledger store resumeCount pid hrec]
      unfold handleProceed
      rw [if_pos hgz]
      exact ⟨rfl, rfl⟩

/-- Witness for C6's amended theorem: the scanner-error part on the
`envScanErr` run and the gzip-open part on the `envGzFail` run. -/
theorem scanError_records_failed_gzOpen_writes_nothing_witness :
    (∃ pid, (handleGzFile jobA envScanErr [] ⟨[], 0⟩).2.2.finalUpdate =
      some (pid, "failed", (0 : Int))) ∧
    ((handleGzFile jobA envGzFail [] ⟨[], 0⟩).1 = [] ∧
      (handleGzFile jobA envGzFail [] ⟨[], 0⟩).2.2.finalUpdate = none) :=
  ⟨(scanError_records_failed_gzOpen_writes_nothing jobA envScanErr [] ⟨[], 0⟩).1
      ⟨0, RunResult.scanErr, []⟩ (by decide) (by decide),
    (scanError_records_failed_gzOpen_writes_nothing jobA envGzFail [] ⟨[], 0⟩).2 (by decide)⟩

/-- Counterexample to C6 as stated: when `gzip.NewReader` fails on a
fresh file, the run ends with the ledger still empty — no `failed` status
is recorded for that file by the deferred finaliser. -/
theorem gzOpenFailure_leaves_ledger_unwritten :
    (handleGzFile jobA envGzFail [] ⟨[], 0⟩).1 = [] ∧
      (handleGzFile jobA envGzFail [] ⟨[], 0⟩).2.2.finalUpdate = none ∧
      (handleGzFile jobA envGzFail [] ⟨[], 0⟩).2.2.gzAborted = true := by
  decide

/-- C7: a prior ledger record in status `completed` or `initiated` makes
the run return before any write: the ledger and the coupon store are both
returned unchanged and the run is reported as skipped. -/
theorem completed_or_initiated_prior_skips (job : FileJob) (env : RunEnv)
    (ledger : List ProcessedCouponFile) (store : CouponStore)
    (prior : ProcessedCouponFile)
    (hfind : IsFileProcessed ledger job.isAdd job.fileName = some prior)
    (hst : prior.status = "completed" ∨ prior.status = "initiated") :
    (handleGzFile job env ledger store).1 = ledger ∧
      (handleGzFile job env ledger store).2.1 = store ∧
      (handleGzFile job env ledger store).2.2.skipped = true := by
  have hrec : reconcile (IsFileProcessed ledger job.isAdd job.fileName) job.freshId = none := by
    rw [hfind]
    rcases hst with h | h <;> simp [reconcile, h]
  rw [handleGzFile_eq_skip job env ledger store hrec]
  exact ⟨rfl, rfl, rfl⟩

/-- Witness for C7 with a concrete `completed` prior record. -/
theorem completed_or_initiated_prior_skips_witness :
    (handleGzFile jobA envPlain [⟨"done", "h", "f.gz", true, 1, 3, 0, "completed"⟩] ⟨[], 0⟩).1 =
        [⟨"done", "h", "f.gz", true, 1, 3, 0, "completed"⟩] ∧
      (handleGzFile jobA envPlain [⟨"done", "h", "f.gz", true, 1, 3, 0, "completed"⟩] ⟨[], 0⟩).2.1 =
        (⟨[], 0⟩ : CouponStore) ∧
      (handleGzFile jobA envPlain [⟨"done", "h", "f.gz", true, 1, 3, 0, "completed"⟩] ⟨[], 0⟩).2.2.skipped =
        true :=
  completed_or_initiated_prior_skips jobA envPlain
    [⟨"done", "h", "f.gz", true, 1, 3, 0, "completed"⟩] ⟨[], 0⟩
    ⟨"done", "h", "f.gz", true, 1, 3, 0, "completed"⟩ (by decide) (Or.inl rfl)

/-- C4 (amended): a prior `failed` record with `processed_count = 0`
makes the run proceed as a fresh insert with watermark 0, but under the
newly generated uuid — the prior record's id is not reused. -/
theorem failed_zero_count_proceeds_fresh (job : FileJob) (env : RunEnv)
    (ledger : List ProcessedCouponFile) (store : CouponStore)
    (prior : ProcessedCouponFile)
    (hfind : IsFileProcessed ledger job.isAdd job.fileName = some prior)
    (hst : prior.status = "failed")
    (hcnt : prior.couponCodeCount = 0) :
    (handleGzFile job env ledger store).2.2.usedId = some job.freshId ∧
      (handleGzFile job env ledger store).2.2.resumeCount = 0 := by
  have hrec : reconcile (IsFileProcessed ledger job.isAdd job.fileName) job.freshId =
      some (0, job.freshId) := by
    rw [hfind]
    simp [reconcile, hst, hcnt]
  rw [handleGzFile_eq_proceed job env ledger store 0 job.freshId hrec]
  unfold handleProceed
  split
  · exact ⟨rfl, rfl⟩
  · exact ⟨rfl, rfl⟩

/-- Witness for C4's amended theorem with a concrete `failed`/count-0
prior record. -/
theorem failed_zero_count_proceeds_fresh_witness :
    (handleGzFile ⟨"f.gz", true, "h", 1, 0, "new"⟩ envPlain
        [⟨"old", "h0", "f.gz", true, 100, 0, 0, "failed"⟩] ⟨[], 0⟩).2.2.usedId =
      some "new" ∧
    (handleGzFile ⟨"f.gz", true, "h", 1, 0, "new"⟩ envPlain
        [⟨"old", "h0", "f.gz", true, 100, 0, 0, "failed"⟩] ⟨[], 0⟩).2.2.resumeCount = 0 :=
  failed_zero_count_proceeds_fresh ⟨"f.gz", true, "h", 1, 0, "new"⟩ envPlain
    [⟨"old", "h0", "f.gz", true, 100, 0, 0, "failed"⟩] ⟨[], 0⟩
    ⟨"old", "h0", "f.gz", true, 100, 0, 0, "failed"⟩ (by decide) rfl rfl

/-- Counterexample to C4 as stated: with a prior `failed`/count-0 record
of id `"old"`, the new `initiated` ledger entry is inserted under the
fresh uuid `"new"`, not under the prior record's id. -/
theorem failed_zero_count_fresh_id_concrete :
    (handleGzFile ⟨"f.gz", true, "h", 1, 0, "new"⟩ envPlain
        [⟨"old", "h0", "f.gz", true, 100, 0, 0, "failed"⟩] ⟨[], 0⟩).2.2.inserted =
      some ⟨"new", "h", "f.gz", true, 1, 0, 0, "initiated"⟩ := by
  decide

/-- C3 run at the failing input: a prior `failed` record with count 5 for
(`is_add=true`, `f.gz`); the resume run reuses id `"old"` but *inserts* a
second ledger row instead of flipping the old one in place, and the
finaliser's `UpdateOne` then lands on the first row, leaving a stuck
duplicate `initiated` row — the ledger ends with two records for the
pair. -/
theorem resume_run_duplicates_ledger_row :
    (handleGzFile jobA envPlain [⟨"old", "h0", "f.gz", true, 100, 5, 0, "failed"⟩] ⟨[], 0⟩).1 =
        [⟨"old", "h0", "f.gz", true, 100, 1, 0, "completed"⟩,
          ⟨"old", "h", "f.gz", true, 1, 0, 0, "initiated"⟩] ∧
      ((handleGzFile jobA envPlain [⟨"old", "h0", "f.gz", true, 100, 5, 0, "failed"⟩] ⟨[], 0⟩).1.countP
        (fun r => r.isAdd && r.fileName == "f.gz")) = 2 := by
  decide

/-- C8: `DeactivateCoupons(f, codes)` deactivates exactly the
pre-existing records with `file_name = f` and a code in `codes`, leaves
every other record (in particular every record of another file) exactly
as it was, inserts nothing and allocates no id; codes without a record
for `f` are silently tolerated. -/
theorem deactivateCoupons_frame (fileName : String) (codes : List String)
    (st : CouponStore) :
    (DeactivateCoupons fileName codes st).nextId = st.nextId ∧
      (DeactivateCoupons fileName codes st).recs.length = st.recs.length ∧
      ∀ (i : Nat) (h : i < st.recs.length)
        (h2 : i < (DeactivateCoupons fileName codes st).recs.length),
        (DeactivateCoupons fileName codes st).recs.get ⟨i, h2⟩ =
          if (st.recs.get ⟨i, h⟩).file_name = fileName ∧
              (st.recs.get ⟨i, h⟩).coupon_code ∈ codes then
            { st.recs.get ⟨i, h⟩ with isactive := false }
          else st.recs.get ⟨i, h⟩ := by
  refine And.intro rfl (And.intro (by simp [DeactivateCoupons]) ?_)
  intro i h h2
  simp only [DeactivateCoupons, List.get_eq_getElem, List.getElem_map]
  have hiff : ((st.recs[i]).file_name = fileName &&
      codes.contains (st.recs[i]).coupon_code) = true ↔
      ((st.recs[i]).file_name = fileName ∧ (st.recs[i]).coupon_code ∈ codes) := by
    simp only [Bool.and_eq_true, decide_eq_true_eq, List.elem_iff]
  split_ifs with h1 h2 h2
  · rfl
  · exact absurd (hiff.mp h1) h2
  · exact absurd (hiff.mpr h2) h1
  · rfl

/-- Witness for C8 on a concrete three-record store: the matching record
is deactivated in place. -/
theorem deactivateCoupons_frame_witness :
    (DeactivateCoupons "f1.gz" ["A", "C"]
        ⟨[⟨0, "A", "f1.gz", 0, true⟩, ⟨1, "B", "f1.gz", 0, true⟩,
          ⟨2, "A", "f2.gz", 0, true⟩], 3⟩).recs.get ⟨0, by decide⟩ =
      ⟨0, "A", "f1.gz", 0, false⟩ := by
  have h := (deactivateCoupons_frame "f1.gz" ["A", "C"]
    ⟨[⟨0, "A", "f1.gz", 0, true⟩, ⟨1, "B", "f1.gz", 0, true⟩,
      ⟨2, "A", "f2.gz", 0, true⟩], 3⟩).2.2 0 (by decide) (by decide)
  rw [h]
  decide

theorem matchesKey_touched (c2 f2 : String) (r : Coupon) (now : Int) :
    matchesKey c2 f2 { r with datetime := now, isactive := true } = matchesKey c2 f2 r := by
  simp [matchesKey]

/-- Touching a document never changes which filters match. -/
theorem hasKey_touchFirst (now : Int) (code fileName c2 f2 : String) :
    ∀ rs : List Coupon, hasKey c2 f2 (touchFirst now code fileName rs) = hasKey c2 f2 rs := by
  intro rs
  induction rs with
  | nil => rfl
  | cons r rs ih =>
    unfold touchFirst
    split
    · simp only [hasKey, List.any_cons, matchesKey_touched]
    · simp only [hasKey, List.any_cons] at ih ⊢
      rw [ih]

/-- Presence of a key survives an upsert of any code. -/
theorem hasKey_upsertOne (fileName : String) (now : Int) (st : CouponStore)
    (b a f2 : String) (h : hasKey a f2 st.recs = true) :
    hasKey a f2 (upsertOne fileName now st b).recs = true := by
  unfold upsertOne
  split
  · simpa [hasKey_touchFirst] using h
  · simp only [hasKey, List.any_append] at h ⊢
    simp [h]

/-- After upserting `a`, the key (`a`, `fileName`) is present. -/
theorem hasKey_upsertOne_self (fileName : String) (now : Int) (st : CouponStore)
    (a : String) : hasKey a fileName (upsertOne fileName now st a).recs = true := by
  unfold upsertOne
  split <;> rename_i h
  · simpa [hasKey_touchFirst] using h
  · simp [hasKey, matchesKey]

/-- Presence of a key survives a whole `AddCoupons` bulk write. -/
theorem hasKey_addCoupons (fileName : String) (now : Int)
    (a f2 : String) :
    ∀ (codes : List String) (st : CouponStore), hasKey a f2 st.recs = true →
      hasKey a f2 (AddCoupons fileName codes now st).recs = true := by
  intro codes
  induction codes with
  | nil => intro st h; exact h
  | cons b codes ih =>
    intro st h
    exact ih (upsertOne fileName now st b) (hasKey_upsertOne fileName now st b a f2 h)

/-- Touching the same key twice keeps only the last touch. -/
theorem touchFirst_touchFirst_self (n1 n2 : Int) (code fileName : String) :
    ∀ rs : List Coupon,
      touchFirst n2 code fileName (touchFirst n1 code fileName rs) =
        touchFirst n2 code fileName rs := by
  intro rs
  induction rs with
  | nil => rfl
  | cons r rs ih =>
    by_cases h : matchesKey code fileName r = true
    · have h2 : matchesKey code fileName { r with datetime := n1, isactive := true } = true := by
        rw [matchesKey_touched]; exact h
      simp [touchFirst, h, h2]
    · simp [touchFirst, h, ih]

/-- Touching an absent key is the identity. -/
theorem touchFirst_of_not_hasKey (now : Int) (code fileName : String) :
    ∀ rs : List Coupon, hasKey code fileName rs = false →
      touchFirst now code fileName rs = rs := by
  intro rs
  induction rs with
  | nil => intro _; rfl
  | cons r rs ih =>
    intro h
    simp only [hasKey, List.any_cons, Bool.or_eq_false_iff] at h
    simp [touchFirst, h.1, ih (show hasKey code fileName rs = false from h.2)]

/-- A touch that finds its key in the left part of an append stays in the
left part. -/
theorem touchFirst_append_left (now : Int) (code fileName : String) :
    ∀ (rs ts : List Coupon), hasKey code fileName rs = true →
      touchFirst now code fileName (rs ++ ts) =
        touchFirst now code fileName rs ++ ts := by
  intro rs
  induction rs with
  | nil => intro ts h; simp [hasKey] at h
  | cons r rs ih =>
    intro ts h
    by_cases hr : matchesKey code fileName r = true
    · simp [touchFirst, hr]
    · simp only [hasKey, List.any_cons, hr, Bool.false_or] at h
      simp [touchFirst, hr, ih ts h]

/-- A touch whose key is absent from the left part of an append acts on
the right part. -/
theorem touchFirst_append_right (now : Int) (code fileName : String) :
    ∀ (rs ts : List Coupon), hasKey code fileName rs = false →
      touchFirst now code fileName (rs ++ ts) =
        rs ++ touchFirst now code fileName ts := by
  intro rs
  induction rs with
  | nil => intro ts _; rfl
  | cons r rs ih =>
    intro ts h
    simp only [hasKey, List.any_cons, Bool.or_eq_false_iff] at h
    simp [touchFirst, h.1, ih ts (show hasKey code fileName rs = false from h.2)]

/-- Touches of two distinct codes commute. -/
theorem touchFirst_comm (n1 n2 : Int) (a b fileName : String) (hab : a ≠ b) :
    ∀ rs : List Coupon,
      touchFirst n1 a fileName (touchFirst n2 b fileName rs) =
        touchFirst n2 b fileName (touchFirst n1 a fileName rs) := by
  intro rs
  induction rs with
  | nil => rfl
  | cons r rs ih =>
    by_cases hA : matchesKey a fileName r = true
    · have hB : matchesKey b fileName r = false := by
        cases hmb : matchesKey b fileName r
        · rfl
        · exfalso
          simp only [matchesKey, Bool.and_eq_true, decide_eq_true_eq] at hA hmb
          exact hab (hA.1 ▸ hmb.1 ▸ rfl)
      simp [touchFirst, hA, hB, matchesKey_touched]
    · by_cases hB : matchesKey b fileName r = true
      · simp [touchFirst, hA, hB, matchesKey_touched]
      · simp [touchFirst, hA, hB, ih]

/-- Unfolding the bulk write one code at a time. -/
theorem AddCoupons_cons (fileName : String) (b : String) (codes : List String)
    (now : Int) (st : CouponStore) :
    AddCoupons fileName (b :: codes) now st =
      AddCoupons fileName codes now (upsertOne fileName now st b) := rfl

/-- The upsert of a present code is the touch of its first match. -/
theorem upsertOne_of_hasKey (fileName : String) (now : Int) (st : CouponStore)
    (a : String) (h : hasKey a fileName st.recs = true) :
    upsertOne fileName now st a = ⟨touchFirst now a fileName st.recs, st.nextId⟩ := by
  unfold upsertOne
  rw [if_pos h]

/-- The upsert of an absent code appends a fresh document. -/
theorem upsertOne_of_not_hasKey (fileName : String) (now : Int) (st : CouponStore)
    (a : String) (h : hasKey a fileName st.recs = false) :
    upsertOne fileName now st a =
      ⟨st.recs ++ [⟨st.nextId, a, fileName, now, true⟩], st.nextId + 1⟩ := by
  unfold upsertOne
  rw [if_neg (by simp [h])]

/-- `upsertOne_of_hasKey` with the store in constructor form. -/
theorem upsertOne_mk_hasKey (fileName : String) (now : Int) (rs : List Coupon)
    (n : Nat) (a : String) (h : hasKey a fileName rs = true) :
    upsertOne fileName now ⟨rs, n⟩ a = ⟨touchFirst now a fileName rs, n⟩ := by
  unfold upsertOne
  rw [if_pos h]

/-- `upsertOne_of_not_hasKey` with the store in constructor form. -/
theorem upsertOne_mk_not_hasKey (fileName : String) (now : Int) (rs : List Coupon)
    (n : Nat) (a : String) (h : hasKey a fileName rs = false) :
    upsertOne fileName now ⟨rs, n⟩ a = ⟨rs ++ [⟨n, a, fileName, now, true⟩], n + 1⟩ := by
  unfold upsertOne
  rw [if_neg (by simp [h])]

/-- Upserting the same code twice is the same as upserting it once at
the later time. -/
theorem upsertOne_upsertOne_self (fileName : String) (n1 n2 : Int) (st : CouponStore)
    (a : String) :
    upsertOne fileName n2 (upsertOne fileName n1 st a) a = upsertOne fileName n2 st a := by
  cases h : hasKey a fileName st.recs with
  | true =>
    rw [upsertOne_of_hasKey fileName n1 st a h]
    rw [upsertOne_mk_hasKey fileName n2 (touchFirst n1 a fileName st.recs) st.nextId a
      (by rw [hasKey_touchFirst]; exact h)]
    rw [upsertOne_of_hasKey fileName n2 st a h]
    rw [touchFirst_touchFirst_self]
  | false =>
    rw [upsertOne_of_not_hasKey fileName n1 st a h]
    rw [upsertOne_mk_hasKey fileName n2
      (st.recs ++ [Coupon.mk st.nextId a fileName n1 true]) (st.nextId + 1) a
      (by simp [hasKey, matchesKey])]
    rw [upsertOne_of_not_hasKey fileName n2 st a h]
    rw [touchFirst_append_right n2 a fileName st.recs _ h]
    simp [touchFirst, matchesKey]

/-- Touching `a` commutes past an upsert of a different code `b`. -/
theorem upsertOne_touch_comm (fileName : String) (n1 n2 : Int) (st : CouponStore)
    (a b : String) (hab : b ≠ a) :
    upsertOne fileName n1 ⟨touchFirst n2 a fileName st.recs, st.nextId⟩ b =
      ⟨touchFirst n2 a fileName (upsertOne fileName n1 st b).recs,
        (upsertOne fileName n1 st b).nextId⟩ := by
  cases hb : hasKey b fileName st.recs with
  | true =>
    rw [upsertOne_mk_hasKey fileName n1 (touchFirst n2 a fileName st.recs) st.nextId b
      (by rw [hasKey_touchFirst]; exact hb)]
    rw [upsertOne_of_hasKey fileName n1 st b hb]
    rw [touchFirst_comm n1 n2 b a fileName (fun h => hab h)]
  | false =>
    rw [upsertOne_mk_not_hasKey fileName n1 (touchFirst n2 a fileName st.recs) st.nextId b
      (by rw [hasKey_touchFirst]; exact hb)]
    rw [upsertOne_of_not_hasKey fileName n1 st b hb]
    cases ha : hasKey a fileName st.recs with
    | true =>
      rw [touchFirst_append_left n2 a fileName st.recs _ ha]
    | false =>
      rw [touchFirst_append_right n2 a fileName st.recs _ ha,
        touchFirst_of_not_hasKey n2 a fileName st.recs ha]
      simp [touchFirst, matchesKey, fun h => hab h]

/-- Touching `a` commutes past a whole bulk write that never upserts
`a`. -/
theorem addCoupons_touch_comm (fileName : String) (n1 n2 : Int) (a : String) :
    ∀ (codes : List String), (∀ b ∈ codes, b ≠ a) →
      ∀ st : CouponStore,
        AddCoupons fileName codes n1 ⟨touchFirst n2 a fileName st.recs, st.nextId⟩ =
          ⟨touchFirst n2 a fileName (AddCoupons fileName codes n1 st).recs,
            (AddCoupons fileName codes n1 st).nextId⟩ := by
  intro codes
  induction codes with
  | nil => intro _ st; rfl
  | cons b codes ih =>
    intro hmem st
    rw [AddCoupons_cons, AddCoupons_cons]
    rw [upsertOne_touch_comm fileName n1 n2 st a b (hmem b (List.mem_cons_self b codes))]
    exact ih (fun c hc => hmem c (List.mem_cons_of_mem b hc)) (upsertOne fileName n1 st b)

/-- An upsert whose key is present and whose touch is already a fixpoint
changes nothing. -/
theorem upsertOne_noop (fileName : String) (now : Int) (st : CouponStore) (a : String)
    (h1 : hasKey a fileName st.recs = true)
    (h2 : touchFirst now a fileName st.recs = st.recs) :
    upsertOne fileName now st a = st := by
  rw [upsertOne_of_hasKey fileName now st a h1, h2]

/-- Right after upserting `a` at time `now`, touching `a` at `now` is a
fixpoint. -/
theorem touchFirst_upsertOne_self (fileName : String) (now : Int) (st : CouponStore)
    (a : String) :
    touchFirst now a fileName (upsertOne fileName now st a).recs =
      (upsertOne fileName now st a).recs := by
  cases h : hasKey a fileName st.recs with
  | true =>
    rw [upsertOne_of_hasKey fileName now st a h]
    exact touchFirst_touchFirst_self now now a fileName st.recs
  | false =>
    rw [upsertOne_of_not_hasKey fileName now st a h]
    rw [show (⟨st.recs ++ [⟨st.nextId, a, fileName, now, true⟩], st.nextId + 1⟩ :
        CouponStore).recs = st.recs ++ [⟨st.nextId, a, fileName, now, true⟩] from rfl]
    rw [touchFirst_append_right now a fileName st.recs _ h]
    simp [touchFirst, matchesKey]

/-- The touch-fixpoint property of `a` is preserved by an upsert of any
code at the same time. -/
theorem touchFirst_fixed_upsertOne (fileName : String) (now : Int) (st : CouponStore)
    (a b : String)
    (hp : hasKey a fileName st.recs = true)
    (ht : touchFirst now a fileName st.recs = st.recs) :
    touchFirst now a fileName (upsertOne fileName now st b).recs =
      (upsertOne fileName now st b).recs := by
  by_cases hba : b = a
  · subst hba
    rw [upsertOne_of_hasKey fileName now st b hp]
    exact touchFirst_touchFirst_self now now b fileName st.recs
  · cases hb : hasKey b fileName st.recs with
    | true =>
      rw [upsertOne_of_hasKey fileName now st b hb]
      rw [show (⟨touchFirst now b fileName st.recs, st.nextId⟩ : CouponStore).recs =
        touchFirst now b fileName st.recs from rfl]
      rw [touchFirst_comm now now a b fileName (fun h => hba h.symm)]
      rw [ht]
    | false =>
      rw [upsertOne_of_not_hasKey fileName now st b hb]
      rw [show (⟨st.recs ++ [⟨st.nextId, b, fileName, now, true⟩], st.nextId + 1⟩ :
          CouponStore).recs = st.recs ++ [⟨st.nextId, b, fileName, now, true⟩] from rfl]
      rw [touchFirst_append_left now a fileName st.recs _ hp, ht]

/-- Inside one bulk write, later occurrences of an already-upserted code
are no-ops: they can be filtered out. -/
theorem addCoupons_filter_self (fileName : String) (now : Int) (a : String) :
    ∀ (codes : List String) (st : CouponStore),
      hasKey a fileName st.recs = true →
      touchFirst now a fileName st.recs = st.recs →
      AddCoupons fileName codes now st =
        AddCoupons fileName (codes.filter (fun b => b != a)) now st := by
  intro codes
  induction codes with
  | nil => intro st _ _; rfl
  | cons b codes ih =>
    intro st hp ht
    by_cases hba : b = a
    · subst hba
      rw [AddCoupons_cons, upsertOne_noop fileName now st b hp ht]
      rw [show ((b :: codes).filter (fun c => c != b)) = codes.filter (fun c => c != b) by
        simp]
      exact ih st hp ht
    · rw [AddCoupons_cons]
      rw [show ((b :: codes).filter (fun c => c != a)) = b :: codes.filter (fun c => c != a) by
        simp [hba]]
      rw [AddCoupons_cons]
      exact ih (upsertOne fileName now st b)
        (hasKey_upsertOne fileName now st b a fileName hp)
        (touchFirst_fixed_upsertOne fileName now st a b hp ht)

/-- First-occurrence deduplication of a code list. -/
def dedupKeepFirst : List String → List String
  | [] => []
  | a :: l => a :: dedupKeepFirst (l.filter (fun b => b != a))
termination_by l => l.length
decreasing_by
  simp only [List.length_cons]
  exact Nat.lt_succ_of_le (List.length_filter_le _ l)

theorem mem_dedupKeepFirst :
    ∀ (n : Nat) (l : List String), l.length ≤ n →
      ∀ b, b ∈ dedupKeepFirst l → b ∈ l := by
  intro n
  induction n with
  | zero =>
    intro l hl b hb
    cases l with
    | nil => simp [dedupKeepFirst] at hb
    | cons a l => simp at hl
  | succ n ih =>
    intro l hl b hb
    cases l with
    | nil => simp [dedupKeepFirst] at hb
    | cons a l =>
      rw [dedupKeepFirst] at hb
      rcases List.mem_cons.mp hb with h | h
      · exact h ▸ List.mem_cons_self a l
      · have hmf := ih (l.filter (fun c => c != a))
          (le_trans (List.length_filter_le _ l) (Nat.le_of_succ_le_succ hl)) b h
        exact List.mem_cons_of_mem a (List.mem_of_mem_filter hmf)

/-- A bulk write only depends on the first occurrence of each code. -/
theorem addCoupons_dedup (fileName : String) (now : Int) :
    ∀ (n : Nat) (codes : List String), codes.length ≤ n → ∀ st : CouponStore,
      AddCoupons fileName codes now st =
        AddCoupons fileName (dedupKeepFirst codes) now st := by
  intro n
  induction n with
  | zero =>
    intro codes hl st
    cases codes with
    | nil => simp [dedupKeepFirst]
    | cons a l => simp at hl
  | succ n ih =>
    intro codes hl st
    cases codes with
    | nil => simp [dedupKeepFirst]
    | cons a l =>
      rw [show dedupKeepFirst (a :: l) =
        a :: dedupKeepFirst (l.filter (fun b => b != a)) from by rw [dedupKeepFirst]]
      rw [AddCoupons_cons, AddCoupons_cons]
      rw [addCoupons_filter_self fileName now a l (upsertOne fileName now st a)
        (hasKey_upsertOne_self fileName now st a)
        (touchFirst_upsertOne_self fileName now st a)]
      exact ih (l.filter (fun b => b != a))
        (le_trans (List.length_filter_le _ l) (Nat.le_of_succ_le_succ hl))
        (upsertOne fileName now st a)

/-- Idempotence of the bulk write on deduplicated code lists. -/
theorem addCoupons_dedup_twice (fileName : String) (n1 n2 : Int) :
    ∀ (n : Nat) (codes : List String), codes.length ≤ n → ∀ st : CouponStore,
      AddCoupons fileName (dedupKeepFirst codes) n2
          (AddCoupons fileName (dedupKeepFirst codes) n1 st) =
        AddCoupons fileName (dedupKeepFirst codes) n2 st := by
  intro n
  induction n with
  | zero =>
    intro codes hl st
    cases codes with
    | nil => simp [dedupKeepFirst, AddCoupons]
    | cons a l => simp at hl
  | succ n ih =>
    intro codes hl st
    cases codes with
    | nil => simp [dedupKeepFirst, AddCoupons]
    | cons a l =>
      rw [show dedupKeepFirst (a :: l) =
        a :: dedupKeepFirst (l.filter (fun b => b != a)) from by rw [dedupKeepFirst]]
      have hmem : ∀ b ∈ dedupKeepFirst (l.filter (fun c => c != a)), b ≠ a := by
        intro b hb
        have hbf := mem_dedupKeepFirst (l.filter (fun c => c != a)).length
          (l.filter (fun c => c != a)) le_rfl b hb
        simpa using List.of_mem_filter hbf
      show AddCoupons fileName (dedupKeepFirst (l.filter (fun b => b != a))) n2
          (upsertOne fileName n2
            (AddCoupons fileName (dedupKeepFirst (l.filter (fun b => b != a))) n1
              (upsertOne fileName n1 st a)) a) =
        AddCoupons fileName (dedupKeepFirst (l.filter (fun b => b != a))) n2
          (upsertOne fileName n2 st a)
      rw [upsertOne_of_hasKey fileName n2
        (AddCoupons fileName (dedupKeepFirst (l.filter (fun b => b != a))) n1
          (upsertOne fileName n1 st a)) a
        (hasKey_addCoupons fileName n1 a fileName
          (dedupKeepFirst (l.filter (fun b => b != a))) (upsertOne fileName n1 st a)
          (hasKey_upsertOne_self fileName n1 st a))]
      rw [← addCoupons_touch_comm fileName n1 n2 a
        (dedupKeepFirst (l.filter (fun b => b != a))) hmem (upsertOne fileName n1 st a)]
      rw [show (⟨touchFirst n2 a fileName (upsertOne fileName n1 st a).recs,
          (upsertOne fileName n1 st a).nextId⟩ : CouponStore) =
        upsertOne fileName n2 (upsertOne fileName n1 st a) a from
        (upsertOne_of_hasKey fileName n2 (upsertOne fileName n1 st a) a
          (hasKey_upsertOne_self fileName n1 st a)).symm]
      rw [upsertOne_upsertOne_self fileName n1 n2 st a]
      exact ih (l.filter (fun b => b != a))
        (le_trans (List.length_filter_le _ l) (Nat.le_of_succ_le_succ hl))
        (upsertOne fileName n2 st a)

/-- C9: running `AddCoupons(f, X)` twice in succession leaves the store
in the same state as the single (second) run: the repeat run matches
every code it already upserted and only re-touches it, inserting nothing
and allocating no new ids.  With equal timestamps this is literally
`AddCoupons(f, X) ∘ AddCoupons(f, X) = AddCoupons(f, X)`. -/
theorem addCoupons_idempotent (fileName : String) (codes : List String)
    (n1 n2 : Int) (st : CouponStore) :
    AddCoupons fileName codes n2 (AddCoupons fileName codes n1 st) =
      AddCoupons fileName codes n2 st := by
  rw [addCoupons_dedup fileName n1 codes.length codes le_rfl st]
  rw [addCoupons_dedup fileName n2 codes.length codes le_rfl
    (AddCoupons fileName (dedupKeepFirst codes) n1 st)]
  rw [addCoupons_dedup fileName n2 codes.length codes le_rfl st]
  exact addCoupons_dedup_twice fileName n1 n2 codes.length codes le_rfl st

end KartChallenge
